import Mathlib

/-!
Verification of the `statgen` streaming-statistics accumulator
(`src/python/stats.py`).

The accumulator keeps a running count, minimum, maximum, raw sum, an anchor
`K` (the first observation), and the centered moment sums `Ex = Σ(x − K)` and
`Ex2 = Σ(x − K)²`.  Derived statistics (`mean`, `var`, `stddev`, `stderr`,
`conf`) are partial: they fail with a `StatsException` message when too few
samples have been added.  The inverse-CDF approximations `Z` and `T`
(MacDougall, "Simulating Computer Systems", p. 276) are pure real functions.

Floating-point numbers are modelled as real numbers (exact arithmetic);
the Python positive/negative float infinities are `⊤` / `⊥` of `EReal`, so the
minimum/maximum fields live in `EReal`.  Queries are pure functions of the
state returning `Except String _`, mirroring Python methods that read `self`
and either return or raise; `remove`, which mutates (resets) and raises,
returns the successor state paired with its error.
-/

namespace Statgen

noncomputable section

/-- Accumulator state: the seven instance attributes of the Python `Stats`
class (`_count`, `_minimum`, `_maximum`, `_K`, `_Ex`, `_Ex2`, `_sum`). -/
structure Stats where
  _count : ℕ
  _minimum : EReal
  _maximum : EReal
  _K : ℝ
  _Ex : ℝ
  _Ex2 : ℝ
  _sum : ℝ

/-- The state established by `Stats.reset` (and by `Stats.__init__`, which
just calls `reset`): zero count, `minimum = +∞`, `maximum = −∞`, and zeroed
anchor, centered sums and raw sum. -/
def Stats.initState : Stats :=
  { _count := 0, _minimum := ⊤, _maximum := ⊥, _K := 0, _Ex := 0, _Ex2 := 0,
    _sum := 0 }

/-- Python `Stats.reset`: unconditionally re-establish the initial state. -/
def Stats.reset (_s : Stats) : Stats := Stats.initState

/-- Python `Stats.add`: update minimum/maximum, set the anchor on the first
observation, bump the count, and accumulate the centered sums and raw sum. -/
def Stats.add (s : Stats) (value : ℝ) : Stats :=
  let m := min s._minimum (value : EReal)
  let M := max s._maximum (value : EReal)
  let K := if s._count = 0 then value else s._K
  { _count := s._count + 1, _minimum := m, _maximum := M, _K := K,
    _Ex := s._Ex + (value - K), _Ex2 := s._Ex2 + (value - K) * (value - K),
    _sum := s._sum + value }

/-- Python `Stats._need1ErrStr % op`. -/
def need1ErrStr (op : String) : String :=
  op ++ " is undefined for less than one sample"

/-- Python `Stats._need2ErrStr % op`. -/
def need2ErrStr (op : String) : String :=
  op ++ " is undefined for less than two samples"

/-- Message of the exception raised by `Stats.remove`. -/
def removeErrStr : String := "the removal of values is not implemented"

/-- Python `Stats.remove`: resets the state, then raises.  The returned pair is the
state after the call together with the raised error. -/
def Stats.remove (s : Stats) (_value : ℝ) : Stats × Except String Unit :=
  (s.reset, Except.error removeErrStr)

/-- Python `Stats.count`: the sample count; never fails. -/
def Stats.count (s : Stats) : ℕ := s._count

/-- Python `Stats.sum`: the raw sum; requires at least one sample. -/
def Stats.sum (s : Stats) : Except String ℝ :=
  if s._count < 1 then Except.error (need1ErrStr ("sum"))
  else Except.ok s._sum

/-- Python `Stats.min`: the minimum value seen; requires at least one sample. -/
def Stats.min (s : Stats) : Except String EReal :=
  if s._count < 1 then Except.error (need1ErrStr ("minimum"))
  else Except.ok s._minimum

/-- Python `Stats.max`: the maximum value seen; requires at least one sample. -/
def Stats.max (s : Stats) : Except String EReal :=
  if s._count < 1 then Except.error (need1ErrStr ("maximum"))
  else Except.ok s._maximum

/-- Python `Stats.mean`: `K + Ex / count`; requires at least one sample. -/
def Stats.mean (s : Stats) : Except String ℝ :=
  if s._count < 1 then Except.error (need1ErrStr ("mean"))
  else Except.ok (s._K + s._Ex / (s._count : ℝ))

/-- Python `Stats.var`: `(Ex2 − Ex·Ex/count) / (count − 1)`; requires at least two
samples. -/
def Stats.var (s : Stats) : Except String ℝ :=
  if s._count < 2 then Except.error (need2ErrStr ("variance"))
  else Except.ok ((s._Ex2 - s._Ex * s._Ex / (s._count : ℝ)) /
    ((s._count : ℝ) - 1))

/-- Python `Stats.stddev`: `sqrt(var())`; requires at least two samples. -/
def Stats.stddev (s : Stats) : Except String ℝ :=
  if s._count < 2 then Except.error (need2ErrStr ("stddev"))
  else do
    let v ← s.var
    pure (Real.sqrt v)

/-- Python `Stats.stderr`: `sqrt(var() / count)`; requires at least two samples. -/
def Stats.stderr (s : Stats) : Except String ℝ :=
  if s._count < 2 then Except.error (need2ErrStr ("stderr"))
  else do
    let v ← s.var
    pure (Real.sqrt (v / (s._count : ℝ)))

/-- The lower-tail reflection performed at the top of `Stats.Z`:
`q = p if p <= 0.5 else 1 - p`.  This `q` is the argument of the logarithm
inside `Z`. -/
def Zq (p : ℝ) : ℝ := if 0.5 < p then 1 - p else p

/-- The core of `Stats.Z` on the reflected argument `q`: the rational
polynomial approximation `z1 − n(z1)/d(z1)` with `z1 = sqrt(−2 ln q)`. -/
def Zbody (q : ℝ) : ℝ :=
  let z1 := Real.sqrt (-2 * Real.log q)
  z1 - ((0.010328 * z1 + 0.802853) * z1 + 2.515517) /
    (((0.0013080 * z1 + 0.189269) * z1 + 1.43278) * z1 + 1)

/-- Python `Stats.Z`: inverse standard-normal CDF approximation; the result is
negated when `p > 0.5`. -/
def Stats.Z (p : ℝ) : ℝ :=
  let z := Zbody (Zq p)
  if 0.5 < p then -z else z

/-- The core of `Stats.T` on `z1 = |Z(p)|`: the four Cornish-Fisher
correction terms `h₀..h₃` folded by `x = (x + hᵢ)/ndf` for `i = 3,2,1,0`,
yielding `z1 + x`. -/
def Tbody (z1 : ℝ) (ndf : ℕ) : ℝ :=
  let z2 := z1 * z1
  let h0 := 0.25 * z1 * (z2 + 1)
  let h1 := 0.010416667 * z1 * ((5 * z2 + 16) * z2 + 3)
  let h2 := 0.002604167 * z1 * ((3 * z2 + 19) * z2 - 15)
  let h3 := 0.000010851 *
    (z1 * ((((79 * z2 + 776) * z2 + 1482) * z2 - 1920) * z2 - 945))
  let x := ((((0 + h3) / (ndf : ℝ) + h2) / (ndf : ℝ) + h1) / (ndf : ℝ) + h0) /
    (ndf : ℝ)
  z1 + x

/-- Python `Stats.T`: inverse Student t CDF approximation; negated when
`p > 0.5`. -/
def Stats.T (p : ℝ) (ndf : ℕ) : ℝ :=
  let t := Tbody |Stats.Z p| ndf
  if 0.5 < p then -t else t

/-- The tail probability `centered = (1 − level) / 2` computed by
`Stats.conf` and passed to `T` or `Z`. -/
def confCentered (level : ℝ) : ℝ := (1 - level) / 2

/-- Python `Stats.conf`: half-width of the two-sided confidence interval.  Requires
at least two samples; uses the Student t multiplier for `1 < count < 30`
and the Gaussian multiplier otherwise, times `stderr()`.  (The Python
default `level = 0.95` is supplied by callers here.) -/
def Stats.conf (s : Stats) (level : ℝ) : Except String ℝ :=
  if s._count < 2 then Except.error (need2ErrStr ("confidence interval"))
  else
    let centered := confCentered level
    let fudge := if 1 < s._count ∧ s._count < 30 then Stats.T centered (s._count - 1)
      else Stats.Z centered
    do
      let se ← s.stderr
      pure (fudge * se)

/-- The accumulator obtained by adding the values of `l`, in order, to a
freshly constructed (equivalently, freshly reset) accumulator. -/
def buildFrom (l : List ℝ) : Stats := l.foldl Stats.add Stats.initState

/-- The value returned by `Stats.var` when `count ≥ 2`. -/
def varValue (s : Stats) : ℝ :=
  (s._Ex2 - s._Ex * s._Ex / (s._count : ℝ)) / ((s._count : ℝ) - 1)

/-- The value returned by `Stats.stderr` when `count ≥ 2`. -/
def stderrValue (s : Stats) : ℝ := Real.sqrt (varValue s / (s._count : ℝ))

/-- States reachable through the public mutating interface: construction,
`add`, and `reset` (the state mutation of `remove` is exactly `reset`). -/
inductive Reachable : Stats → Prop where
  | init : Reachable Stats.initState
  | add (s : Stats) (v : ℝ) : Reachable s → Reachable (s.add v)
  | reset (s : Stats) : Reachable s → Reachable (s.reset)

end

/-! ## Basic facts about `add` and `foldl add` -/

theorem add_count (s : Stats) (v : ℝ) : (s.add v)._count = s._count + 1 := rfl

theorem add_sum (s : Stats) (v : ℝ) : (s.add v)._sum = s._sum + v := rfl

theorem add_minimum (s : Stats) (v : ℝ) :
    (s.add v)._minimum = min s._minimum (v : EReal) := rfl

theorem add_maximum (s : Stats) (v : ℝ) :
    (s.add v)._maximum = max s._maximum (v : EReal) := rfl

theorem add_K_of_ne (s : Stats) (v : ℝ) (h : s._count ≠ 0) :
    (s.add v)._K = s._K := by
  simp [Stats.add, h]

theorem add_Ex_of_ne (s : Stats) (v : ℝ) (h : s._count ≠ 0) :
    (s.add v)._Ex = s._Ex + (v - s._K) := by
  simp [Stats.add, h]

theorem add_Ex2_of_ne (s : Stats) (v : ℝ) (h : s._count ≠ 0) :
    (s.add v)._Ex2 = s._Ex2 + (v - s._K) * (v - s._K) := by
  simp [Stats.add, h]

theorem foldl_add_count (l : List ℝ) (s : Stats) :
    (l.foldl Stats.add s)._count = s._count + l.length := by
  induction l generalizing s with
  | nil => simp
  | cons x xs ih =>
      rw [List.foldl_cons, ih, add_count, List.length_cons]
      omega

theorem foldl_add_sum (l : List ℝ) (s : Stats) :
    (l.foldl Stats.add s)._sum = s._sum + l.sum := by
  induction l generalizing s with
  | nil => simp
  | cons x xs ih =>
      rw [List.foldl_cons, ih, add_sum, List.sum_cons]
      ring

theorem foldl_add_K (l : List ℝ) (s : Stats) (h : s._count ≠ 0) :
    (l.foldl Stats.add s)._K = s._K := by
  induction l generalizing s with
  | nil => rfl
  | cons x xs ih =>
      rw [List.foldl_cons, ih _ (by rw [add_count]; omega), add_K_of_ne _ _ h]

theorem foldl_add_Ex (l : List ℝ) (s : Stats) (h : s._count ≠ 0) :
    (l.foldl Stats.add s)._Ex = s._Ex + (l.sum - l.length * s._K) := by
  induction l generalizing s with
  | nil => simp
  | cons x xs ih =>
      rw [List.foldl_cons, ih _ (by rw [add_count]; omega),
        add_Ex_of_ne _ _ h, add_K_of_ne _ _ h, List.sum_cons,
        List.length_cons]
      push_cast
      ring

theorem foldl_add_Ex2 (l : List ℝ) (s : Stats) (h : s._count ≠ 0) :
    (l.foldl Stats.add s)._Ex2 =
      s._Ex2 + (l.map (fun y => (y - s._K) ^ 2)).sum := by
  induction l generalizing s with
  | nil => simp
  | cons x xs ih =>
      rw [List.foldl_cons, ih _ (by rw [add_count]; omega),
        add_Ex2_of_ne _ _ h, add_K_of_ne _ _ h, List.map_cons, List.sum_cons]
      ring

theorem foldl_add_minimum (l : List ℝ) (s : Stats) :
    (l.foldl Stats.add s)._minimum =
      l.foldl (fun (m : EReal) (x : ℝ) => Min.min m (x : EReal)) s._minimum := by
  induction l generalizing s with
  | nil => rfl
  | cons x xs ih => rw [List.foldl_cons, ih, List.foldl_cons, add_minimum]

theorem foldl_add_maximum (l : List ℝ) (s : Stats) :
    (l.foldl Stats.add s)._maximum =
      l.foldl (fun (m : EReal) (x : ℝ) => Max.max m (x : EReal)) s._maximum := by
  induction l generalizing s with
  | nil => rfl
  | cons x xs ih => rw [List.foldl_cons, ih, List.foldl_cons, add_maximum]

theorem add_initState (x : ℝ) :
    Stats.initState.add x =
      { _count := 1, _minimum := (x : EReal), _maximum := (x : EReal),
        _K := x, _Ex := 0, _Ex2 := 0, _sum := x } := by
  simp [Stats.add, Stats.initState, min_eq_right (le_top : (x : EReal) ≤ ⊤),
    max_eq_right (bot_le : (⊥ : EReal) ≤ (x : EReal))]

/-! ## List arithmetic helpers -/

theorem sum_map_sq_sub (l : List ℝ) (c : ℝ) :
    (l.map (fun y => (y - c) ^ 2)).sum =
      (l.map (fun y => y ^ 2)).sum - 2 * c * l.sum + l.length * c ^ 2 := by
  induction l with
  | nil => simp
  | cons x xs ih =>
      simp only [List.map_cons, List.sum_cons, List.length_cons, ih]
      push_cast
      ring

theorem length_mul_le_sum (l : List ℝ) (c : ℝ) (h : ∀ y ∈ l, c ≤ y) :
    (l.length : ℝ) * c ≤ l.sum := by
  induction l with
  | nil => simp
  | cons x xs ih =>
      have hx : c ≤ x := h x (List.mem_cons_self x xs)
      have hxs := ih fun y hy => h y (List.mem_cons_of_mem x hy)
      simp only [List.sum_cons, List.length_cons]
      push_cast
      linarith

theorem sum_le_length_mul (l : List ℝ) (c : ℝ) (h : ∀ y ∈ l, y ≤ c) :
    l.sum ≤ (l.length : ℝ) * c := by
  induction l with
  | nil => simp
  | cons x xs ih =>
      have hx : x ≤ c := h x (List.mem_cons_self x xs)
      have hxs := ih fun y hy => h y (List.mem_cons_of_mem x hy)
      simp only [List.sum_cons, List.length_cons]
      push_cast
      linarith

theorem foldl_min_le_init (l : List ℝ) (a : ℝ) : l.foldl Min.min a ≤ a := by
  induction l generalizing a with
  | nil => simp
  | cons x xs ih => exact le_trans (ih (Min.min a x)) (min_le_left a x)

theorem foldl_min_le_mem (l : List ℝ) (a : ℝ) (y : ℝ) (hy : y ∈ l) :
    l.foldl Min.min a ≤ y := by
  induction l generalizing a with
  | nil => cases hy
  | cons x xs ih =>
      rcases List.mem_cons.mp hy with h | h
      · subst h
        exact le_trans (foldl_min_le_init xs (Min.min a y)) (min_le_right a y)
      · exact ih (Min.min a x) h

theorem init_le_foldl_max (l : List ℝ) (a : ℝ) : a ≤ l.foldl Max.max a := by
  induction l generalizing a with
  | nil => simp
  | cons x xs ih => exact le_trans (le_max_left a x) (ih (Max.max a x))

theorem mem_le_foldl_max (l : List ℝ) (a : ℝ) (y : ℝ) (hy : y ∈ l) :
    y ≤ l.foldl Max.max a := by
  induction l generalizing a with
  | nil => cases hy
  | cons x xs ih =>
      rcases List.mem_cons.mp hy with h | h
      · subst h
        exact le_trans (le_max_right a y) (init_le_foldl_max xs (Max.max a y))
      · exact ih (Max.max a x) h

theorem foldl_emin_coe (l : List ℝ) (a : ℝ) :
    l.foldl (fun (m : EReal) (x : ℝ) => Min.min m (x : EReal)) (a : EReal) =
      ((l.foldl Min.min a : ℝ) : EReal) := by
  induction l generalizing a with
  | nil => rfl
  | cons x xs ih =>
      rw [List.foldl_cons, List.foldl_cons,
        ← (EReal.coe_strictMono.monotone).map_min, ih]

theorem foldl_emax_coe (l : List ℝ) (a : ℝ) :
    l.foldl (fun (m : EReal) (x : ℝ) => Max.max m (x : EReal)) (a : EReal) =
      ((l.foldl Max.max a : ℝ) : EReal) := by
  induction l generalizing a with
  | nil => rfl
  | cons x xs ih =>
      rw [List.foldl_cons, List.foldl_cons,
        ← (EReal.coe_strictMono.monotone).map_max, ih]

/-! ## The state built from a list of observations -/

theorem buildFrom_count (l : List ℝ) : (buildFrom l)._count = l.length := by
  rw [buildFrom, foldl_add_count]
  simp [Stats.initState]

theorem buildFrom_sum (l : List ℝ) : (buildFrom l)._sum = l.sum := by
  rw [buildFrom, foldl_add_sum]
  simp [Stats.initState]

theorem buildFrom_cons (x : ℝ) (xs : List ℝ) :
    buildFrom (x :: xs) =
      xs.foldl Stats.add
        { _count := 1, _minimum := (x : EReal), _maximum := (x : EReal),
          _K := x, _Ex := 0, _Ex2 := 0, _sum := x } := by
  rw [buildFrom, List.foldl_cons, add_initState]

theorem buildFrom_K (x : ℝ) (xs : List ℝ) : (buildFrom (x :: xs))._K = x := by
  rw [buildFrom_cons, foldl_add_K]
  exact Nat.one_ne_zero

theorem buildFrom_Ex (x : ℝ) (xs : List ℝ) :
    (buildFrom (x :: xs))._Ex =
      (x :: xs).sum - ((x :: xs).length : ℝ) * x := by
  rw [buildFrom_cons, foldl_add_Ex _ _ (by exact Nat.one_ne_zero)]
  simp only [List.sum_cons, List.length_cons]
  push_cast
  ring

theorem buildFrom_Ex2 (x : ℝ) (xs : List ℝ) :
    (buildFrom (x :: xs))._Ex2 =
      ((x :: xs).map (fun y => (y - x) ^ 2)).sum := by
  rw [buildFrom_cons, foldl_add_Ex2 _ _ (by exact Nat.one_ne_zero)]
  simp

theorem buildFrom_minimum (x : ℝ) (xs : List ℝ) :
    (buildFrom (x :: xs))._minimum = ((xs.foldl Min.min x : ℝ) : EReal) := by
  rw [buildFrom_cons, foldl_add_minimum]
  exact foldl_emin_coe xs x

theorem buildFrom_maximum (x : ℝ) (xs : List ℝ) :
    (buildFrom (x :: xs))._maximum = ((xs.foldl Max.max x : ℝ) : EReal) := by
  rw [buildFrom_cons, foldl_add_maximum]
  exact foldl_emax_coe xs x

theorem mean_eq_ok (s : Stats) (h : 1 ≤ s._count) :
    s.mean = Except.ok (s._K + s._Ex / (s._count : ℝ)) := by
  rw [Stats.mean, if_neg (by omega)]

theorem var_eq_ok (s : Stats) (h : 2 ≤ s._count) :
    s.var = Except.ok (varValue s) := by
  rw [Stats.var, if_neg (by omega)]
  rfl

theorem stderr_eq_ok (s : Stats) (h : 2 ≤ s._count) :
    s.stderr = Except.ok (stderrValue s) := by
  rw [Stats.stderr, if_neg (by omega), var_eq_ok s h]
  rfl

theorem mean_buildFrom (l : List ℝ) (h : 1 ≤ l.length) :
    (buildFrom l).mean = Except.ok (l.sum / (l.length : ℝ)) := by
  rcases l with _ | ⟨x, xs⟩
  · simp at h
  · have hn : ((x :: xs).length : ℝ) ≠ 0 := by
      simp only [List.length_cons]
      push_cast
      positivity
    rw [mean_eq_ok _ (by rw [buildFrom_count]; exact h), buildFrom_K,
      buildFrom_Ex, buildFrom_count]
    congr 1
    field_simp
    ring

theorem varValue_buildFrom (l : List ℝ) (h : 2 ≤ l.length) :
    varValue (buildFrom l) =
      ((l.map (fun y => y ^ 2)).sum - l.sum ^ 2 / (l.length : ℝ)) /
        ((l.length : ℝ) - 1) := by
  rcases l with _ | ⟨x, xs⟩
  · simp at h
  · have hn : ((x :: xs).length : ℝ) ≠ 0 := by
      simp only [List.length_cons]
      push_cast
      positivity
    rw [varValue, buildFrom_count, buildFrom_Ex, buildFrom_Ex2,
      sum_map_sq_sub]
    congr 1
    field_simp
    ring

theorem sum_eq_ok (s : Stats) (h : 1 ≤ s._count) :
    s.sum = Except.ok s._sum := by
  rw [Stats.sum, if_neg (by omega)]

theorem min_eq_ok (s : Stats) (h : 1 ≤ s._count) :
    s.min = Except.ok s._minimum := by
  rw [Stats.min, if_neg (by omega)]

theorem max_eq_ok (s : Stats) (h : 1 ≤ s._count) :
    s.max = Except.ok s._maximum := by
  rw [Stats.max, if_neg (by omega)]

theorem var_eq_error (s : Stats) (h : s._count < 2) :
    s.var = Except.error (need2ErrStr ("variance")) := by
  rw [Stats.var, if_pos h]

theorem stddev_eq_ok (s : Stats) (h : 2 ≤ s._count) :
    s.stddev = Except.ok (Real.sqrt (varValue s)) := by
  rw [Stats.stddev, if_neg (by omega), var_eq_ok s h]
  rfl

theorem conf_eq_ok (s : Stats) (level : ℝ) (h : 2 ≤ s._count) :
    s.conf level =
      Except.ok ((if s._count < 30 then Stats.T (confCentered level) (s._count - 1)
        else Stats.Z (confCentered level)) * stderrValue s) := by
  rw [Stats.conf, if_neg (by omega), stderr_eq_ok s h]
  show Except.ok ((if 1 < s._count ∧ s._count < 30 then
      Stats.T (confCentered level) (s._count - 1)
    else Stats.Z (confCentered level)) * stderrValue s) = _
  by_cases h30 : s._count < 30
  · rw [if_pos (show 1 < s._count ∧ s._count < 30 from ⟨by omega, h30⟩),
      if_pos h30]
  · rw [if_neg (show ¬(1 < s._count ∧ s._count < 30) from fun hc => h30 hc.2),
      if_neg h30]

/-! ## Claim theorems -/

/-- C1: on an accumulator holding `n ≥ 2` observations, `var()` returns
`(centeredSumSq − centeredSum²/count) / (count − 1)` and, in exact
arithmetic, this equals the reference sample variance
`Σ (xᵢ − mean)² / (n − 1)`. -/
theorem var_shifted_equals_sample_variance (l : List ℝ) (h : 2 ≤ l.length) :
    (buildFrom l).var =
      Except.ok (((buildFrom l)._Ex2 -
        (buildFrom l)._Ex * (buildFrom l)._Ex / ((buildFrom l)._count : ℝ)) /
        (((buildFrom l)._count : ℝ) - 1)) ∧
    (buildFrom l).var =
      Except.ok ((l.map (fun y => (y - l.sum / (l.length : ℝ)) ^ 2)).sum /
        ((l.length : ℝ) - 1)) := by
  have hc : 2 ≤ (buildFrom l)._count := by rw [buildFrom_count]; exact h
  have hn : (l.length : ℝ) ≠ 0 := by
    have : (0 : ℝ) < (l.length : ℝ) := by exact_mod_cast Nat.lt_of_lt_of_le (by norm_num) h
    positivity
  have hd : (l.length : ℝ) - 1 ≠ 0 := by
    have : (2 : ℝ) ≤ (l.length : ℝ) := by exact_mod_cast h
    intro hz
    linarith
  refine ⟨var_eq_ok _ hc, ?_⟩
  rw [var_eq_ok _ hc, varValue_buildFrom l h, sum_map_sq_sub]
  congr 1
  field_simp
  ring

/-- C1 witness: instantiation at the observations `[1, 2, 3, 4]`. -/
theorem var_shifted_equals_sample_variance_witness :
    2 ≤ ([1, 2, 3, 4] : List ℝ).length ∧
    ((buildFrom [1, 2, 3, 4]).var =
      Except.ok (((buildFrom [1, 2, 3, 4])._Ex2 -
        (buildFrom [1, 2, 3, 4])._Ex * (buildFrom [1, 2, 3, 4])._Ex /
          ((buildFrom [1, 2, 3, 4])._count : ℝ)) /
        (((buildFrom [1, 2, 3, 4])._count : ℝ) - 1)) ∧
    (buildFrom [1, 2, 3, 4]).var =
      Except.ok ((([1, 2, 3, 4] : List ℝ).map
          (fun y => (y - ([1, 2, 3, 4] : List ℝ).sum /
            (([1, 2, 3, 4] : List ℝ).length : ℝ)) ^ 2)).sum /
        ((([1, 2, 3, 4] : List ℝ).length : ℝ) - 1))) :=
  ⟨by decide, var_shifted_equals_sample_variance [1, 2, 3, 4] (by decide)⟩

/-- C2: with at least one observation, `mean()` returns
`anchor + centeredSum / count`, which in exact arithmetic equals
`sum / count`, and `minimum ≤ maximum`. -/
theorem mean_anchor_and_minmax (l : List ℝ) (h : 1 ≤ l.length) :
    (buildFrom l).mean =
      Except.ok ((buildFrom l)._K +
        (buildFrom l)._Ex / ((buildFrom l)._count : ℝ)) ∧
    (buildFrom l).mean = Except.ok (l.sum / (l.length : ℝ)) ∧
    (buildFrom l)._minimum ≤ (buildFrom l)._maximum := by
  refine ⟨mean_eq_ok _ (by rw [buildFrom_count]; exact h),
    mean_buildFrom l h, ?_⟩
  rcases l with _ | ⟨x, xs⟩
  · simp at h
  · rw [buildFrom_minimum, buildFrom_maximum, EReal.coe_le_coe_iff]
    exact le_trans (foldl_min_le_init xs x) (init_le_foldl_max xs x)

/-- C2 witness: instantiation at the observations `[1, 2]`. -/
theorem mean_anchor_and_minmax_witness :
    1 ≤ ([1, 2] : List ℝ).length ∧
    ((buildFrom [1, 2]).mean =
      Except.ok ((buildFrom [1, 2])._K +
        (buildFrom [1, 2])._Ex / ((buildFrom [1, 2])._count : ℝ)) ∧
    (buildFrom [1, 2]).mean =
      Except.ok (([1, 2] : List ℝ).sum / (([1, 2] : List ℝ).length : ℝ)) ∧
    (buildFrom [1, 2])._minimum ≤ (buildFrom [1, 2])._maximum) :=
  ⟨by decide, mean_anchor_and_minmax [1, 2] (by decide)⟩

/-- C4: `remove(value)` always fails with the `Unsupported` error
(a `StatsException` carrying "the removal of values is not implemented"),
and leaves
the accumulator in the initial/reset state: count 0, minimum `+∞`, maximum
`−∞`, anchor 0, centered sums 0, sum 0. -/
theorem remove_always_fails_and_resets (s : Stats) (v : ℝ) :
    (s.remove v).2 = Except.error removeErrStr ∧
    (s.remove v).1._count = 0 ∧ (s.remove v).1._minimum = ⊤ ∧
    (s.remove v).1._maximum = ⊥ ∧ (s.remove v).1._K = 0 ∧
    (s.remove v).1._Ex = 0 ∧ (s.remove v).1._Ex2 = 0 ∧
    (s.remove v).1._sum = 0 :=
  ⟨rfl, rfl, rfl, rfl, rfl, rfl, rfl, rfl⟩

/-- C5: `sum`, `min`, `max`, `mean` succeed exactly when `count ≥ 1`;
`var`, `stddev`, `stderr`, `conf` succeed exactly when `count ≥ 2` (for
`conf` under `level ∈ (0,1)`); `count()` never fails and returns the count.
Queries are pure functions of the state (they are modelled as functions
`Stats → Except String _` and return no successor state), so they cannot
change the accumulator. -/
theorem query_guards (s : Stats) (level : ℝ) (_hl0 : 0 < level)
    (_hl1 : level < 1) :
    s.count = s._count ∧
    ((∃ v, s.sum = Except.ok v) ↔ 1 ≤ s._count) ∧
    ((∃ v, s.min = Except.ok v) ↔ 1 ≤ s._count) ∧
    ((∃ v, s.max = Except.ok v) ↔ 1 ≤ s._count) ∧
    ((∃ v, s.mean = Except.ok v) ↔ 1 ≤ s._count) ∧
    ((∃ v, s.var = Except.ok v) ↔ 2 ≤ s._count) ∧
    ((∃ v, s.stddev = Except.ok v) ↔ 2 ≤ s._count) ∧
    ((∃ v, s.stderr = Except.ok v) ↔ 2 ≤ s._count) ∧
    ((∃ v, s.conf level = Except.ok v) ↔ 2 ≤ s._count) := by
  refine ⟨rfl, ?_, ?_, ?_, ?_, ?_, ?_, ?_, ?_⟩
  · by_cases hc : 1 ≤ s._count
    · rw [sum_eq_ok s hc]
      simp [hc]
    · rw [Stats.sum, if_pos (by omega)]
      simp
      omega
  · by_cases hc : 1 ≤ s._count
    · rw [min_eq_ok s hc]
      simp [hc]
    · rw [Stats.min, if_pos (by omega)]
      simp
      omega
  · by_cases hc : 1 ≤ s._count
    · rw [max_eq_ok s hc]
      simp [hc]
    · rw [Stats.max, if_pos (by omega)]
      simp
      omega
  · by_cases hc : 1 ≤ s._count
    · rw [mean_eq_ok s hc]
      simp [hc]
    · rw [Stats.mean, if_pos (by omega)]
      simp
      omega
  · by_cases hc : 2 ≤ s._count
    · rw [var_eq_ok s hc]
      simp [hc]
    · rw [var_eq_error s (by omega)]
      simp
      omega
  · by_cases hc : 2 ≤ s._count
    · rw [stddev_eq_ok s hc]
      simp [hc]
    · rw [Stats.stddev, if_pos (by omega)]
      simp
      omega
  · by_cases hc : 2 ≤ s._count
    · rw [stderr_eq_ok s hc]
      simp [hc]
    · rw [Stats.stderr, if_pos (by omega)]
      simp
      omega
  · by_cases hc : 2 ≤ s._count
    · rw [conf_eq_ok s level hc]
      simp [hc]
    · rw [Stats.conf, if_pos (by omega)]
      simp
      omega

/-- C5 witness: instantiation at the empty accumulator and level 0.95. -/
theorem query_guards_witness :
    (0 : ℝ) < 0.95 ∧ (0.95 : ℝ) < 1 ∧
    (Stats.initState.count = Stats.initState._count ∧
    ((∃ v, Stats.initState.sum = Except.ok v) ↔ 1 ≤ Stats.initState._count) ∧
    ((∃ v, Stats.initState.min = Except.ok v) ↔ 1 ≤ Stats.initState._count) ∧
    ((∃ v, Stats.initState.max = Except.ok v) ↔ 1 ≤ Stats.initState._count) ∧
    ((∃ v, Stats.initState.mean = Except.ok v) ↔ 1 ≤ Stats.initState._count) ∧
    ((∃ v, Stats.initState.var = Except.ok v) ↔ 2 ≤ Stats.initState._count) ∧
    ((∃ v, Stats.initState.stddev = Except.ok v) ↔ 2 ≤ Stats.initState._count) ∧
    ((∃ v, Stats.initState.stderr = Except.ok v) ↔ 2 ≤ Stats.initState._count) ∧
    ((∃ v, Stats.initState.conf 0.95 = Except.ok v) ↔
      2 ≤ Stats.initState._count)) :=
  ⟨by norm_num, by norm_num, query_guards Stats.initState 0.95 (by norm_num) (by norm_num)⟩

/-- C6: adding the same multiset of observations in two different orders
yields accumulators on which `mean`, `var`, `min`, `max` and `sum` agree
(in exact arithmetic), even though the anchor is the first value added. -/
theorem order_independent (l1 l2 : List ℝ) (hp : l1.Perm l2) :
    (buildFrom l1).mean = (buildFrom l2).mean ∧
    (buildFrom l1).var = (buildFrom l2).var ∧
    (buildFrom l1).min = (buildFrom l2).min ∧
    (buildFrom l1).max = (buildFrom l2).max ∧
    (buildFrom l1).sum = (buildFrom l2).sum := by
  have hlen : l1.length = l2.length := hp.length_eq
  have hsum : l1.sum = l2.sum := hp.sum_eq
  have hsq : (l1.map (fun y => y ^ 2)).sum = (l2.map (fun y => y ^ 2)).sum :=
    (hp.map _).sum_eq
  have hminE : (buildFrom l1)._minimum = (buildFrom l2)._minimum := by
    rw [buildFrom, buildFrom, foldl_add_minimum, foldl_add_minimum]
    exact hp.foldl_eq'
      (fun x _ y _ z => min_right_comm z ((x : ℝ) : EReal) ((y : ℝ) : EReal)) _
  have hmaxE : (buildFrom l1)._maximum = (buildFrom l2)._maximum := by
    rw [buildFrom, buildFrom, foldl_add_maximum, foldl_add_maximum]
    refine hp.foldl_eq' (fun x _ y _ z => ?_) _
    rw [max_assoc, max_assoc, max_comm ((x : ℝ) : EReal) ((y : ℝ) : EReal)]
  refine ⟨?_, ?_, ?_, ?_, ?_⟩
  · rcases Nat.eq_zero_or_pos l1.length with h0 | h1
    · have e1 : l1 = [] := List.length_eq_zero.mp h0
      have e2 : l2 = [] := List.length_eq_zero.mp (by omega)
      rw [e1, e2]
    · rw [mean_buildFrom l1 h1, mean_buildFrom l2 (hlen ▸ h1), hsum, hlen]
  · by_cases h2 : 2 ≤ l1.length
    · rw [var_eq_ok _ (by rw [buildFrom_count]; exact h2),
        var_eq_ok _ (by rw [buildFrom_count, ← hlen]; exact h2),
        varValue_buildFrom l1 h2, varValue_buildFrom l2 (hlen ▸ h2),
        hsum, hlen, hsq]
    · rw [var_eq_error _ (by rw [buildFrom_count]; omega),
        var_eq_error _ (by rw [buildFrom_count, ← hlen]; omega)]
  · rw [Stats.min, Stats.min, buildFrom_count, buildFrom_count, hlen, hminE]
  · rw [Stats.max, Stats.max, buildFrom_count, buildFrom_count, hlen, hmaxE]
  · rw [Stats.sum, Stats.sum, buildFrom_count, buildFrom_count, hlen,
      buildFrom_sum, buildFrom_sum, hsum]

/-- C6 witness: instantiation at the transposed observation lists `[1, 2]`
and `[2, 1]`. -/
theorem order_independent_witness :
    ([1, 2] : List ℝ).Perm [2, 1] ∧
    ((buildFrom [1, 2]).mean = (buildFrom [2, 1]).mean ∧
    (buildFrom [1, 2]).var = (buildFrom [2, 1]).var ∧
    (buildFrom [1, 2]).min = (buildFrom [2, 1]).min ∧
    (buildFrom [1, 2]).max = (buildFrom [2, 1]).max ∧
    (buildFrom [1, 2]).sum = (buildFrom [2, 1]).sum) :=
  ⟨List.Perm.swap 2 1 [], order_independent [1, 2] [2, 1] (List.Perm.swap 2 1 [])⟩

theorem reachable_inv (s : Stats) (h : Reachable s) :
    (s._count = 0 → s = Stats.initState) ∧
    (s._count ≠ 0 → s._minimum ≠ ⊤) := by
  induction h with
  | init => exact ⟨fun _ => rfl, fun hc => absurd rfl hc⟩
  | add s v _ _ =>
      refine ⟨fun hc => absurd hc (by rw [add_count]; omega), fun _ => ?_⟩
      rw [add_minimum]
      exact (lt_of_le_of_lt (min_le_right _ _) (EReal.coe_lt_top v)).ne
  | reset s _ _ => exact ⟨fun _ => rfl, fun hc => absurd rfl hc⟩

/-- C8: in every reachable state, `count = 0` holds iff the state carries
the initial/reset configuration (`minimum = +∞`, `maximum = −∞`,
`anchor = centeredSum = centeredSumSq = sum = 0`); construction and
`reset()` both establish this configuration, and `reset` is idempotent. -/
theorem count_zero_iff_reset_config (s : Stats) (h : Reachable s) :
    (s._count = 0 ↔ (s._minimum = ⊤ ∧ s._maximum = ⊥ ∧ s._K = 0 ∧
      s._Ex = 0 ∧ s._Ex2 = 0 ∧ s._sum = 0)) ∧
    Stats.initState._count = 0 ∧ s.reset = Stats.initState ∧
    Stats.initState.reset = Stats.initState := by
  obtain ⟨h1, h2⟩ := reachable_inv s h
  refine ⟨⟨fun hc => ?_, fun hf => ?_⟩, rfl, rfl, rfl⟩
  · rw [h1 hc]
    exact ⟨rfl, rfl, rfl, rfl, rfl, rfl⟩
  · by_contra hne
    exact h2 hne hf.1

/-- C8 witness: instantiation at the freshly constructed accumulator. -/
theorem count_zero_iff_reset_config_witness :
    Reachable Stats.initState ∧
    ((Stats.initState._count = 0 ↔ (Stats.initState._minimum = ⊤ ∧
      Stats.initState._maximum = ⊥ ∧ Stats.initState._K = 0 ∧
      Stats.initState._Ex = 0 ∧ Stats.initState._Ex2 = 0 ∧
      Stats.initState._sum = 0)) ∧
    Stats.initState._count = 0 ∧
    Stats.initState.reset = Stats.initState ∧
    Stats.initState.reset = Stats.initState) :=
  ⟨Reachable.init, count_zero_iff_reset_config Stats.initState Reachable.init⟩

/-- C3: with at least two observations and a confidence level in `(0,1)`,
`conf(level)` returns `multiplier × stderr()` where the multiplier is the
Student t approximation `T((1−level)/2, count−1)` for `2 ≤ count < 30`
and the Gaussian approximation `Z((1−level)/2)` for `count ≥ 30`. -/
theorem conf_multiplier_spec (s : Stats) (level : ℝ) (h2 : 2 ≤ s._count)
    (_hl0 : 0 < level) (_hl1 : level < 1) :
    ∃ se, s.stderr = Except.ok se ∧
      s.conf level = Except.ok
        ((if s._count < 30 then Stats.T (confCentered level) (s._count - 1)
          else Stats.Z (confCentered level)) * se) :=
  ⟨stderrValue s, stderr_eq_ok s h2, conf_eq_ok s level h2⟩

/-- C3 witness: instantiation at the accumulator built from `[1, 2]` and
level 0.95. -/
theorem conf_multiplier_spec_witness :
    2 ≤ (buildFrom [1, 2])._count ∧ (0 : ℝ) < 0.95 ∧ (0.95 : ℝ) < 1 ∧
    (∃ se, (buildFrom [1, 2]).stderr = Except.ok se ∧
      (buildFrom [1, 2]).conf 0.95 = Except.ok
        ((if (buildFrom [1, 2])._count < 30 then
            Stats.T (confCentered 0.95) ((buildFrom [1, 2])._count - 1)
          else Stats.Z (confCentered 0.95)) * se)) :=
  ⟨by rw [buildFrom_count]; decide, by norm_num, by norm_num,
    conf_multiplier_spec (buildFrom [1, 2]) 0.95
      (by rw [buildFrom_count]; decide) (by norm_num) (by norm_num)⟩

/-- C9: for `level ∈ (0,1)`, the tail probability `centered = (1−level)/2`
computed by `conf` lies strictly inside `(0, 1/2)`, and the reflected value
`q` that `Z` feeds to the logarithm is strictly positive, so the logarithm
is never taken of zero or a negative number. -/
theorem conf_tail_prob_safe (level : ℝ) (hl0 : 0 < level) (hl1 : level < 1) :
    0 < confCentered level ∧ confCentered level < 1 / 2 ∧
    0 < Zq (confCentered level) := by
  have h1 : 0 < confCentered level := by rw [confCentered]; linarith
  have h2 : confCentered level < 1 / 2 := by rw [confCentered]; linarith
  have h3 : ¬ (0.5 : ℝ) < confCentered level := by
    rw [not_lt]
    linarith
  refine ⟨h1, h2, ?_⟩
  rw [Zq, if_neg h3]
  exact h1

/-- C9 witness: instantiation at level 0.95. -/
theorem conf_tail_prob_safe_witness :
    (0 : ℝ) < 0.95 ∧ (0.95 : ℝ) < 1 ∧
    (0 < confCentered 0.95 ∧ confCentered 0.95 < 1 / 2 ∧
      0 < Zq (confCentered 0.95)) :=
  ⟨by norm_num, by norm_num, conf_tail_prob_safe 0.95 (by norm_num) (by norm_num)⟩

/-- C10: with at least one observation, `min() ≤ mean() ≤ max()` in exact
arithmetic; and an accumulator holding `n ≥ 2` copies of the same value has
that value as mean and variance 0. -/
theorem min_le_mean_le_max_and_constant (l : List ℝ) (h : 1 ≤ l.length)
    (v : ℝ) (n : ℕ) (hn : 2 ≤ n) :
    (∃ m μ M, (buildFrom l).min = Except.ok m ∧
      (buildFrom l).mean = Except.ok μ ∧ (buildFrom l).max = Except.ok M ∧
      m ≤ ((μ : ℝ) : EReal) ∧ ((μ : ℝ) : EReal) ≤ M) ∧
    (buildFrom (List.replicate n v)).mean = Except.ok v ∧
    (buildFrom (List.replicate n v)).var = Except.ok 0 := by
  constructor
  · rcases l with _ | ⟨x, xs⟩
    · simp at h
    · have hcount : 1 ≤ (buildFrom (x :: xs))._count := by
        rw [buildFrom_count]; exact h
      have hlenpos : (0 : ℝ) < ((x :: xs).length : ℝ) := by
        simp only [List.length_cons]
        push_cast
        positivity
      refine ⟨((xs.foldl Min.min x : ℝ) : EReal), (x :: xs).sum / ((x :: xs).length : ℝ),
        ((xs.foldl Max.max x : ℝ) : EReal), ?_, mean_buildFrom _ h, ?_, ?_, ?_⟩
      · rw [min_eq_ok _ hcount, buildFrom_minimum]
      · rw [max_eq_ok _ hcount, buildFrom_maximum]
      · rw [EReal.coe_le_coe_iff, le_div_iff₀ hlenpos]
        have hall : ∀ y ∈ (x :: xs), xs.foldl Min.min x ≤ y := by
          intro y hy
          rcases List.mem_cons.mp hy with h' | h'
          · exact h' ▸ foldl_min_le_init xs x
          · exact foldl_min_le_mem xs x y h'
        have := length_mul_le_sum (x :: xs) (xs.foldl Min.min x) hall
        linarith
      · rw [EReal.coe_le_coe_iff, div_le_iff₀ hlenpos]
        have hall : ∀ y ∈ (x :: xs), y ≤ xs.foldl Max.max x := by
          intro y hy
          rcases List.mem_cons.mp hy with h' | h'
          · exact h' ▸ init_le_foldl_max xs x
          · exact mem_le_foldl_max xs x y h'
        have := sum_le_length_mul (x :: xs) (xs.foldl Max.max x) hall
        linarith
  · have hlen : (List.replicate n v).length = n := List.length_replicate n v
    have hone : 1 ≤ (List.replicate n v).length := by omega
    have hnR : ((n : ℝ)) ≠ 0 := by
      have : (0:ℝ) < (n : ℝ) := by exact_mod_cast Nat.lt_of_lt_of_le (by norm_num) hn
      positivity
    constructor
    · rw [mean_buildFrom _ hone, hlen, List.sum_replicate, nsmul_eq_mul]
      congr 1
      field_simp
    · have h2 : 2 ≤ (List.replicate n v).length := by omega
      rw [var_eq_ok _ (by rw [buildFrom_count]; exact h2),
        varValue_buildFrom _ h2, hlen, List.sum_replicate, nsmul_eq_mul,
        List.map_replicate, List.sum_replicate, nsmul_eq_mul]
      have hd : ((n : ℝ)) - 1 ≠ 0 := by
        have : (2:ℝ) ≤ (n : ℝ) := by exact_mod_cast hn
        intro hz
        nlinarith
      congr 1
      field_simp
      ring

/-- C10 witness: instantiation at the observations `[1, 2]` and three
copies of 7. -/
theorem min_le_mean_le_max_and_constant_witness :
    1 ≤ ([1, 2] : List ℝ).length ∧ 2 ≤ 3 ∧
    ((∃ m μ M, (buildFrom [1, 2]).min = Except.ok m ∧
      (buildFrom [1, 2]).mean = Except.ok μ ∧
      (buildFrom [1, 2]).max = Except.ok M ∧
      m ≤ ((μ : ℝ) : EReal) ∧ ((μ : ℝ) : EReal) ≤ M) ∧
    (buildFrom (List.replicate 3 (7 : ℝ))).mean = Except.ok 7 ∧
    (buildFrom (List.replicate 3 (7 : ℝ))).var = Except.ok 0) :=
  ⟨by decide, by decide,
    min_le_mean_le_max_and_constant [1, 2] (by decide) 7 3 (by decide)⟩

/-! ## Antisymmetry of the quantile approximations -/

theorem Z_antisym (p : ℝ) (hp : p ≠ 1 / 2) :
    Stats.Z p = -(Stats.Z (1 - p)) := by
  rcases lt_or_gt_of_ne hp with h | h
  · have h1 : ¬ (0.5 : ℝ) < p := by rw [not_lt]; linarith
    have h2 : (0.5 : ℝ) < 1 - p := by linarith
    simp only [Stats.Z, Zq]
    rw [if_neg h1, if_neg h1, if_pos h2, if_pos h2,
      show (1 : ℝ) - (1 - p) = p by ring, neg_neg]
  · have h1 : (0.5 : ℝ) < p := by linarith
    have h2 : ¬ (0.5 : ℝ) < 1 - p := by rw [not_lt]; linarith
    simp only [Stats.Z, Zq]
    rw [if_pos h1, if_pos h1, if_neg h2, if_neg h2]

theorem T_antisym (p : ℝ) (hp : p ≠ 1 / 2) (ndf : ℕ) :
    Stats.T p ndf = -(Stats.T (1 - p) ndf) := by
  have hZ : Stats.Z (1 - p) = -(Stats.Z p) := by
    have := Z_antisym p hp
    linarith
  have habs : |Stats.Z (1 - p)| = |Stats.Z p| := by rw [hZ, abs_neg]
  rcases lt_or_gt_of_ne hp with h | h
  · have h1 : ¬ (0.5 : ℝ) < p := by rw [not_lt]; linarith
    have h2 : (0.5 : ℝ) < 1 - p := by linarith
    simp only [Stats.T]
    rw [if_neg h1, if_pos h2, habs, neg_neg]
  · have h1 : (0.5 : ℝ) < p := by linarith
    have h2 : ¬ (0.5 : ℝ) < 1 - p := by rw [not_lt]; linarith
    simp only [Stats.T]
    rw [if_pos h1, if_neg h2, habs]

/-- At the symmetry point the approximation residual does not vanish:
`Z(0.5) = sqrt(2 ln 2) − n/d` is strictly negative (numerically about
`−3.86e-6`), so `Z(0.5) ≠ 0 = −Z(0.5)`.  Proved by interval arithmetic
from the 9-digit bounds on `ln 2`. -/
theorem Z_half_neg : Stats.Z (1 / 2) < 0 := by
  have hZhalf : Stats.Z (1 / 2 : ℝ) = Zbody (1 / 2 : ℝ) := by
    simp only [Stats.Z, Zq]
    rw [if_neg (by norm_num : ¬ (0.5 : ℝ) < 1 / 2),
      if_neg (by norm_num : ¬ (0.5 : ℝ) < 1 / 2)]
  have hlog : -2 * Real.log (1 / 2 : ℝ) = 2 * Real.log 2 := by
    rw [one_div, Real.log_inv]
    ring
  have hZb : Zbody (1 / 2 : ℝ) =
      Real.sqrt (2 * Real.log 2) -
        ((0.010328 * Real.sqrt (2 * Real.log 2) + 0.802853) *
            Real.sqrt (2 * Real.log 2) + 2.515517) /
          (((0.0013080 * Real.sqrt (2 * Real.log 2) + 0.189269) *
              Real.sqrt (2 * Real.log 2) + 1.43278) *
            Real.sqrt (2 * Real.log 2) + 1) := by
    simp only [Zbody]
    rw [hlog]
  set z1 := Real.sqrt (2 * Real.log 2) with hz1def
  have hl2a : (0.6931471803 : ℝ) < Real.log 2 := Real.log_two_gt_d9
  have hl2b : Real.log 2 < 0.6931471808 := Real.log_two_lt_d9
  have ha : (1.1774100221 : ℝ) < z1 := by
    rw [hz1def]
    refine (Real.lt_sqrt (by norm_num)).mpr ?_
    nlinarith
  have hb : z1 < 1.1774100229 := by
    rw [hz1def]
    refine (Real.sqrt_lt' (by norm_num)).mpr ?_
    nlinarith
  have hz1pos : (0 : ℝ) < z1 := lt_trans (by norm_num) ha
  have hn_nonneg : (0 : ℝ) ≤ (0.010328 * z1 + 0.802853) * z1 + 2.515517 := by
    nlinarith
  have hn_lb : (0.010328 * (1.1774100221 : ℝ) + 0.802853) * 1.1774100221 +
      2.515517 ≤ (0.010328 * z1 + 0.802853) * z1 + 2.515517 := by
    nlinarith
  have hd_pos : (0 : ℝ) <
      ((0.0013080 * z1 + 0.189269) * z1 + 1.43278) * z1 + 1 := by
    nlinarith
  have hd_ub : ((0.0013080 * z1 + 0.189269) * z1 + 1.43278) * z1 + 1 ≤
      ((0.0013080 * (1.1774100229 : ℝ) + 0.189269) * 1.1774100229 + 1.43278) *
        1.1774100229 + 1 := by
    nlinarith
  have hfrac : ((0.010328 * (1.1774100221 : ℝ) + 0.802853) * 1.1774100221 +
        2.515517) /
      (((0.0013080 * (1.1774100229 : ℝ) + 0.189269) * 1.1774100229 + 1.43278) *
        1.1774100229 + 1) ≤
      ((0.010328 * z1 + 0.802853) * z1 + 2.515517) /
        (((0.0013080 * z1 + 0.189269) * z1 + 1.43278) * z1 + 1) :=
    div_le_div₀ hn_nonneg hn_lb hd_pos hd_ub
  have hkey : (1.1774100229 : ℝ) -
      ((0.010328 * (1.1774100221 : ℝ) + 0.802853) * 1.1774100221 + 2.515517) /
        (((0.0013080 * (1.1774100229 : ℝ) + 0.189269) * 1.1774100229 +
          1.43278) * 1.1774100229 + 1) < 0 := by
    norm_num
  rw [hZhalf, hZb]
  linarith

/-- C7 counterexample: the claimed antisymmetry `Z(p) = −Z(1−p)` fails at
the symmetry point `p = 0.5`: there it would force `Z(0.5) = 0`, but the
rational approximation leaves a nonzero residual (`Z(0.5) ≈ −3.86e-6`,
beyond the `assertAlmostEqual(places=7)` tolerance used by the tests of
the repository). -/
theorem Z_antisym_fails_at_half :
    Stats.Z (1 / 2) ≠ -(Stats.Z (1 - 1 / 2)) := by
  rw [show (1 : ℝ) - 1 / 2 = 1 / 2 by norm_num]
  intro hEq
  have hzero : Stats.Z (1 / 2 : ℝ) = 0 := by linarith
  have hneg := Z_half_neg
  linarith

/-- C7 (amended): for every `p ∈ (0,1)` other than the symmetry point
`p = 0.5`, the antisymmetry holds exactly (not merely up to tolerance):
`Z(p) = −Z(1−p)`, and `T(p, ndf) = −T(1−p, ndf)` for every `ndf ≥ 1`.
At `p = 0.5` it fails, because `Z(0.5)` is a nonzero negative residual. -/
theorem Z_T_antisym_off_center (p : ℝ) (ndf : ℕ) (_h0 : 0 < p)
    (_h1 : p < 1) (hp : p ≠ 1 / 2) (_hn : 1 ≤ ndf) :
    Stats.Z p = -(Stats.Z (1 - p)) ∧
    Stats.T p ndf = -(Stats.T (1 - p) ndf) :=
  ⟨Z_antisym p hp, T_antisym p hp ndf⟩

/-- C7 witness: instantiation at `p = 1/4`, `ndf = 3`. -/
theorem Z_T_antisym_off_center_witness :
    (0 : ℝ) < 1 / 4 ∧ (1 / 4 : ℝ) < 1 ∧ (1 / 4 : ℝ) ≠ 1 / 2 ∧ 1 ≤ 3 ∧
    (Stats.Z (1 / 4) = -(Stats.Z (1 - 1 / 4)) ∧
      Stats.T (1 / 4) 3 = -(Stats.T (1 - 1 / 4) 3)) :=
  ⟨by norm_num, by norm_num, by norm_num, by norm_num,
    Z_T_antisym_off_center (1 / 4) 3 (by norm_num) (by norm_num)
      (by norm_num) (by norm_num)⟩

end Statgen
